import Mathlib

/-!
Verification of the CUPiD run driver (`cupid/run.py`) against its
natural-language specification.

The Python source is shallowly embedded: Python (ordered) dicts become
association lists with insert-or-update semantics (`dinsert`), fallible
dict indexing becomes `Option`/`Except`, and the `run` entry point becomes
the pure function `runPy`.  Filesystem path canonicalisation
(`os.path.realpath(os.path.expanduser(...))`) is delegated to the OS, so it
is passed in as an abstract `resolve : String → String` argument.  External
effects (the intake `serialize` call) are recorded as effect records in the
result.  Graph assembly lives in `cupid.util` / ploomber, which is not part
of the sources under verification; it is modelled from the specification
(see `assemble`).
-/

/-- Values stored in the global-parameters mapping. -/
inductive GVal where
  | b (v : Bool)
  | s (v : String)
deriving DecidableEq, Repr

/-- Per-task metadata from the task catalog: required kernel name, the
optional `dependency` entry, and opaque pass-through parameters. -/
structure TaskInfo where
  kernel_name : String
  dependency : Option String
  extra : List (String × String)
deriving DecidableEq, Repr

/-- An ordered category of tasks: task name to task metadata, in
configuration (insertion) order, mirroring a Python dict. -/
abbrev Category := List (String × TaskInfo)

/-- A catalog section (`compute_notebooks` / `compute_scripts`): category
name to category, in configuration order. -/
abbrev Sections := List (String × Category)

/-- The `data_sources` part of the control structure. -/
structure DataSources where
  run_dir : String
  sname : String
  nb_path_root : String
  path_to_cat_json : Option String
  subset : Option (List (String × String))
deriving DecidableEq, Repr

/-- The parsed control structure (`cupid.util.get_control_dict` output).
Optional fields model the `'key' in control` membership tests of the
source. -/
structure Control where
  data_sources : DataSources
  global_params : Option (List (String × GVal))
  env_check : Option (List (String × Bool))
  compute_notebooks : Option Sections
  compute_scripts : Option Sections
deriving DecidableEq, Repr

/-- Command-line flags of the `run` command. -/
structure Flags where
  serial : Bool
  time_series : Bool
  all : Bool
  atmosphere : Bool
  ocean : Bool
  land : Bool
  seaice : Bool
  landice : Bool
deriving DecidableEq, Repr

/-- Errors the embedded run can raise.  `keyError` models a Python
`KeyError` from indexing a dict with a missing key; `configError` models a
failure of configuration loading. -/
inductive RunError where
  | notImplementedError
  | keyError
  | configError
deriving DecidableEq, Repr

/-- The executor attached to the ploomber DAG. -/
inductive ExecKind where
  | serial
  | distributed
deriving DecidableEq, Repr

/-- A notebook task handed to `cupid.util.create_ploomber_nb_task`,
with every argument of that call recorded. -/
structure NbTask where
  name : String
  info : TaskInfo
  cat_path : Option String
  nb_path_root : String
  output_dir : String
  global_params : List (String × GVal)
  dependency : Option String
deriving DecidableEq, Repr

/-- A script task handed to `cupid.util.create_ploomber_script_task`. -/
structure ScriptTask where
  name : String
  info : TaskInfo
  cat_path : Option String
  nb_path_root : String
  global_params : List (String × GVal)
  dependency : Option String
deriving DecidableEq, Repr

/-- Record of a `cat_subset.serialize(directory=..., name=..., catalog_type=...)`
call on the external catalog service. -/
structure SerializeEffect where
  directory : String
  sername : String
  catalog_type : String
deriving DecidableEq, Repr

/-- Everything the run produces when it does not raise. -/
structure RunResult where
  executor : ExecKind
  cat_path : Option String
  serialize_effects : List SerializeEffect
  warnings : List String
  nb_tasks : List NbTask
  script_tasks : List ScriptTask
  dag_built : Bool
deriving DecidableEq, Repr

instance {ε α : Type} [DecidableEq ε] [DecidableEq α] : DecidableEq (Except ε α) := fun
  | .error e, .error f => decidable_of_iff (e = f) (by simp)
  | .error _, .ok _ => isFalse (by simp)
  | .ok _, .error _ => isFalse (by simp)
  | .ok a, .ok b => decidable_of_iff (a = b) (by simp)

/-- The observable outcome of the run: the result-or-exception, plus the
value of `sys.tracebacklimit` if the run assigned it. -/
structure RunOutcome where
  result : Except RunError RunResult
  tracebackLimit : Option Nat
deriving DecidableEq, Repr

/-! ### Ordered-dict primitives (Python dict semantics) -/

/-- First-match lookup in an association list (Python `d[k]` when present). -/
def lookupA {α : Type} : List (String × α) → String → Option α
  | [], _ => none
  | p :: rest, k => if p.1 = k then some p.2 else lookupA rest k

/-- Python `k in d`. -/
def hasKeyA {α : Type} (d : List (String × α)) (k : String) : Bool :=
  d.any (fun p => p.1 == k)

/-- Python `d[k] = v`: update in place when the key exists (keeping its
position), otherwise append. -/
def dinsert {α : Type} (d : List (String × α)) (k : String) (v : α) : List (String × α) :=
  if hasKeyA d k then d.map (fun p => if p.1 = k then (k, v) else p)
  else d ++ [(k, v)]

/-- Merge a list of entries into a dict, one `d[k] = v` at a time
(the inner `for nb, info in category.items()` loops of the source). -/
def dmergeList (d : Category) (es : Category) : Category :=
  es.foldl (fun d e => dinsert d e.1 e.2) d

/-- All entries of all categories of a section, flattened in configuration
order. -/
def flatEntries (cn : Sections) : Category :=
  cn.foldr (fun sec acc => sec.2 ++ acc) []

/-- The last value written for a key across a sequence of entries
(last-write-wins reading). -/
def lastWrite (k : String) (es : Category) : Option TaskInfo :=
  (es.reverse.find? (fun p => p.1 == k)).map (fun p => p.2)

/-! ### Universe building (source lines 96-180) -/

/-- Effective select-all condition: source lines 111-112 / 157-158 force
`all = True` when no component flag is set, then line 114 / 160 tests
`all`. -/
def effAll (flags : Flags) : Bool :=
  flags.all || !(flags.atmosphere || flags.ocean || flags.land || flags.seaice || flags.landice)

/-- The `component_options` dict of source lines 96-100, in its literal
insertion order. -/
def componentOptions (flags : Flags) : List (String × Bool) :=
  [("atmosphere", flags.atmosphere), ("ocean", flags.ocean), ("land", flags.land),
   ("seaice", flags.seaice), ("landice", flags.landice)]

/-- Warning of source line 126. -/
def noNbWarning (comp : String) : String :=
  "No notebooks for " ++ comp ++ " component specified in config file."

/-- Warning of source line 172. -/
def noScriptWarning (comp : String) : String :=
  "No scripts for " ++ comp ++ " component specified in config file."

/-- Warning of source line 133. -/
def nbEnvWarning (env nb : String) : String :=
  "Environment " ++ env ++ " specified for " ++ nb ++ ".ipynb could not be found; " ++
  nb ++ ".ipynb will not be run. See README.md for environment installation instructions."

/-- Warning of source line 179. -/
def scriptEnvWarning (env script : String) : String :=
  "Environment " ++ env ++ " specified for " ++ script ++ ".py could not be found; " ++
  script ++ ".py will not be run."

/-- The component-selection merge loop (source lines 120-126 / 166-172):
for each flagged component in `component_options` order, merge its
category into the accumulated dict if the category is present, else emit a
warning; warnings come out in loop order. -/
def mergeSelected (cn : Sections) (init : Category) (opts : List (String × Bool))
    (mkWarn : String → String) : Category × List String :=
  match opts with
  | [] => (init, [])
  | o :: rest =>
    if o.2 then
      match lookupA cn o.1 with
      | some cat => mergeSelected cn (dmergeList init cat) rest mkWarn
      | none =>
        let r := mergeSelected cn init rest mkWarn
        (r.1, mkWarn o.1 :: r.2)
    else mergeSelected cn init rest mkWarn

/-- Notebook universe merge (source lines 104-126).  Line 106 indexes
`control['compute_notebooks']['infrastructure']` unconditionally, so a
missing infrastructure category raises `KeyError`. -/
def nbMerge (cn : Sections) (flags : Flags) : Except RunError (Category × List String) :=
  match lookupA cn "infrastructure" with
  | none => .error .keyError
  | some infra =>
    let init := dmergeList [] infra
    if effAll flags then
      .ok (cn.foldl (fun d sec => dmergeList d sec.2) init, [])
    else
      .ok (mergeSelected cn init (componentOptions flags) noNbWarning)

/-- Script universe merge (source lines 153-172).  Note: unlike the
notebook merge, there is no unconditional infrastructure pre-merge in the
source here. -/
def scriptMerge (cs : Sections) (flags : Flags) : Category × List String :=
  if effAll flags then
    (cs.foldl (fun d sec => dmergeList d sec.2) [], [])
  else
    mergeSelected cs [] (componentOptions flags) noScriptWarning

/-- Environment filter (source lines 130-134 / 176-180): for each task in
merge order, index `control["env_check"]` (raising `KeyError` when the
section or the kernel name is missing); a `False` value warns and drops
the task. -/
def envFilter (envOpt : Option (List (String × Bool))) (mkWarn : String → String → String) :
    Category → Except RunError (Category × List String)
  | [] => .ok ([], [])
  | t :: rest =>
    match envOpt with
    | none => .error .keyError
    | some env =>
      match lookupA env t.2.kernel_name with
      | none => .error .keyError
      | some true =>
        match envFilter envOpt mkWarn rest with
        | .error e => .error e
        | .ok (kept, ws) => .ok (t :: kept, ws)
      | some false =>
        match envFilter envOpt mkWarn rest with
        | .error e => .error e
        | .ok (kept, ws) => .ok (kept, mkWarn t.2.kernel_name t.1 :: ws)

/-! ### Catalog stage (source lines 58-75) -/

/-- Python `str.split` with a single-character separator: splits into the
(nonempty) list of chunks between separator occurrences. -/
def splitChar (sep : Char) : List Char → List (List Char)
  | [] => [[]]
  | c :: rest =>
    match splitChar sep rest with
    | [] => [[]]
    | grp :: grps => if c = sep then [] :: grp :: grps else (c :: grp) :: grps

/-- Python `path.split("/")[-1].split('.')[0]` (source line 71). -/
def catStem (path : String) : String :=
  ⟨(splitChar '.' ((splitChar '/' path.toList).getLastD [])).headD []⟩

/-- Catalog handling (source lines 58-75): returns the `cat_path` attached
to every task and the serialize calls issued to the catalog service. -/
def catStage (resolve : String → String) (ds : DataSources) (temp_data_path : String) :
    Option String × List SerializeEffect :=
  match ds.path_to_cat_json with
  | none => (none, [])
  | some p =>
    let full_cat_path := resolve p
    match ds.subset with
    | some _ =>
      let cat_subset_name := catStem full_cat_path ++ "_subset"
      (some (temp_data_path ++ "/" ++ cat_subset_name ++ ".json"),
       [⟨temp_data_path, cat_subset_name, "file"⟩])
    | none => (some full_cat_path, [])

/-! ### Task creation (source lines 138-146 / 184-190) -/

/-- Notebook task-creation loop (source lines 138-146).  Each iteration
executes `global_params['serial'] = serial` on the shared mapping before
handing it to `create_ploomber_nb_task`; the mutated mapping is threaded
out for the later script stage. -/
def mkNbTasks (kept : Category) (cat_path : Option String) (nb_path_root output_dir : String)
    (gp0 : List (String × GVal)) (serial : Bool) :
    List NbTask × List (String × GVal) :=
  kept.foldl
    (fun acc t =>
      let gp1 := dinsert acc.2 "serial" (GVal.b serial)
      (acc.1 ++ [⟨t.1, t.2, cat_path, nb_path_root, output_dir, gp1, t.2.dependency⟩], gp1))
    ([], gp0)

/-- Notebook stage (source lines 102-146), run only when
`'compute_notebooks' in control`. -/
def nbStage (cnOpt : Option Sections) (envOpt : Option (List (String × Bool)))
    (flags : Flags) (cat_path : Option String) (nb_path_root output_dir : String)
    (gp : List (String × GVal)) :
    Except RunError (List NbTask × List String × List (String × GVal)) :=
  match cnOpt with
  | none => .ok ([], [], gp)
  | some cn =>
    match nbMerge cn flags with
    | .error e => .error e
    | .ok (merged, ws1) =>
      match envFilter envOpt nbEnvWarning merged with
      | .error e => .error e
      | .ok (kept, ws2) =>
        let r := mkNbTasks kept cat_path nb_path_root output_dir gp flags.serial
        .ok (r.1, ws1 ++ ws2, r.2)

/-- Script stage (source lines 151-190), run only when
`'compute_scripts' in control`.  Script tasks receive the
global-parameters mapping in whatever state the notebook stage left it;
this stage itself never writes to it. -/
def scriptStage (csOpt : Option Sections) (envOpt : Option (List (String × Bool)))
    (flags : Flags) (cat_path : Option String) (nb_path_root : String)
    (gp : List (String × GVal)) :
    Except RunError (List ScriptTask × List String) :=
  match csOpt with
  | none => .ok ([], [])
  | some cs =>
    let m := scriptMerge cs flags
    match envFilter envOpt scriptEnvWarning m.1 with
    | .error e => .error e
    | .ok (kept, ws2) =>
      .ok (kept.map (fun t => ⟨t.1, t.2, cat_path, nb_path_root, gp, t.2.dependency⟩),
           m.2 ++ ws2)

/-! ### The run driver (source lines 31-196) -/

/-- Resolved `run_dir` of source line 48. -/
def runDirOf (resolve : String → String) (control : Control) : String :=
  resolve control.data_sources.run_dir

/-- Computed `output_dir` of source line 49. -/
def outputDirOf (resolve : String → String) (control : Control) : String :=
  runDirOf resolve control ++ "/computed_notebooks/" ++ control.data_sources.sname

/-- Computed `temp_data_path` of source line 50. -/
def tempDataOf (resolve : String → String) (control : Control) : String :=
  runDirOf resolve control ++ "/temp_data"

/-- Resolved `nb_path_root` of source line 51. -/
def rootOf (resolve : String → String) (control : Control) : String :=
  resolve control.data_sources.nb_path_root

/-- The catalog stage applied to this control structure. -/
def catOf (resolve : String → String) (control : Control) :
    Option String × List SerializeEffect :=
  catStage resolve control.data_sources (tempDataOf resolve control)

/-- Initial `global_params` of source lines 81-84. -/
def gp0Of (control : Control) : List (String × GVal) :=
  control.global_params.getD []

/-- Body of `run` after the `--time-series` guard, for an already loaded
control structure.  The DAG executor is `ploomber.executors.Serial()`
(source line 90) unconditionally. -/
def runPyCore (resolve : String → String) (flags : Flags) (control : Control) :
    Except RunError RunResult :=
  match nbStage control.compute_notebooks control.env_check flags (catOf resolve control).1
      (rootOf resolve control) (outputDirOf resolve control) (gp0Of control) with
  | .error e => .error e
  | .ok (nbT, ws1, gp1) =>
    match scriptStage control.compute_scripts control.env_check flags (catOf resolve control).1
        (rootOf resolve control) gp1 with
    | .error e => .error e
    | .ok (sT, ws2) =>
      .ok ⟨ExecKind.serial, (catOf resolve control).1, (catOf resolve control).2,
           ws1 ++ ws2, nbT, sT, true⟩

/-- The `run` entry point (source lines 31-196).  `config` is the outcome
of configuration loading, which happens only after the `--time-series`
guard of lines 37-40; that guard sets `sys.tracebacklimit = 0` and raises
`NotImplementedError`. -/
def runPy (resolve : String → String) (flags : Flags) (config : Except RunError Control) :
    RunOutcome :=
  if flags.time_series then ⟨.error .notImplementedError, some 0⟩
  else
    match config with
    | .error e => ⟨.error e, none⟩
    | .ok control => ⟨runPyCore resolve flags control, none⟩

/-! ### Graph assembly

The dependency resolver / graph assembler lives in `cupid.util`
(`create_ploomber_nb_task` / `create_ploomber_script_task`) and in the
ploomber `DAG`, neither of which is among the sources under verification;
`run.py` only forwards each task's `dependency` entry.  The assembler is
therefore modelled from the specification. -/

/-- Errors of graph assembly (specification §7). -/
inductive AssembleError where
  | unresolvedDependencyError
  | cyclicDependencyError
deriving DecidableEq, Repr

/-- The dependency names a task declares. -/
def depsOf (info : TaskInfo) : List String :=
  info.dependency.toList

/-- Names of the supplied tasks. -/
def taskNames (tasks : List (String × TaskInfo)) : List String :=
  tasks.map (fun t => t.1)

/-- There is a declared dependency edge from task `a` to its predecessor
`b`: some supplied task named `a` lists `b` among its dependencies. -/
def hasEdgeB (tasks : List (String × TaskInfo)) (a b : String) : Bool :=
  tasks.any (fun t => t.1 == a && (depsOf t.2).contains b)

/-- Bounded reachability along dependency edges: `reachB tasks fuel a b`
holds when `b` is reachable from `a` in at least one and at most
`fuel + 1` edge steps, through supplied task names. -/
def reachB (tasks : List (String × TaskInfo)) : Nat → String → String → Bool
  | 0, a, b => hasEdgeB tasks a b
  | n + 1, a, b =>
    hasEdgeB tasks a b ||
    tasks.any (fun t => hasEdgeB tasks a t.1 && reachB tasks n t.1 b)

/-- Some task can reach itself along dependency edges. -/
def hasCycleB (tasks : List (String × TaskInfo)) : Bool :=
  tasks.any (fun t => reachB tasks tasks.length t.1 t.1)

/-- Modelled from the spec: `assemble(tasks, ...) -> TaskGraph`
(specification §4.3); the concrete assembler in `cupid.util` and the
ploomber `DAG` are not among the sources under verification.  A dependency
name not present among the supplied tasks raises
`UnresolvedDependencyError`; if the assembled edges form a cycle,
`CyclicDependencyError` is raised; otherwise the graph (its nodes carrying
the supplied tasks) is returned and only then may execution begin. -/
def assemble (tasks : List (String × TaskInfo)) :
    Except AssembleError (List (String × TaskInfo)) :=
  match tasks.find? (fun t => (depsOf t.2).any (fun d => !((taskNames tasks).contains d))) with
  | some _ => .error .unresolvedDependencyError
  | none =>
    if hasCycleB tasks then .error .cyclicDependencyError
    else .ok tasks

/-- A walk along dependency edges: `isPath tasks a xs b` means the edge
sequence `a → xs₀ → xs₁ → ... → b` exists. -/
def isPath (tasks : List (String × TaskInfo)) : String → List String → String → Prop
  | a, [], b => hasEdgeB tasks a b = true
  | a, x :: xs, b => hasEdgeB tasks a x = true ∧ isPath tasks x xs b

/-- The declared dependency edges form a cycle through the (nonempty) list
of task names `c`: consecutive elements are joined by edges and the last
element has an edge back to the first. -/
def isCycleList (tasks : List (String × TaskInfo)) : List String → Prop
  | [] => False
  | a :: rest => isPath tasks a rest a

/-! ### Auxiliary definitions for the claims -/

/-- The same flags with every selection flag explicitly set. -/
def allSet (f : Flags) : Flags :=
  { f with all := true, atmosphere := true, ocean := true,
           land := true, seaice := true, landice := true }

/-- Merge order as the claim words it for the select-all case:
infrastructure first, then the remaining categories (infrastructure
excluded) in configuration order, last-write-wins. -/
def claimOrderMerge (cn : Sections) : Category :=
  match lookupA cn "infrastructure" with
  | none => []
  | some infra =>
    (cn.filter (fun sec => !(sec.1 == "infrastructure"))).foldl
      (fun d sec => dmergeList d sec.2) (dmergeList [] infra)

/-! ### Concrete fixtures -/

/-- All flags off. -/
def flagsNone : Flags := ⟨false, false, false, false, false, false, false, false⟩

/-- Minimal data sources. -/
def dsTriv : DataSources := ⟨"/r", "case", "/nb", none, none⟩

/-- A task requiring the `base` kernel, no dependency. -/
def infoBase : TaskInfo := ⟨"base", none, []⟩

/-- A notebook whose kernel name `mykernel` is absent from the
environment-availability mapping. -/
def ctrlC1 : Control :=
  ⟨dsTriv, none, some [("base", true)],
   some [("infrastructure", [("nb1", ⟨"mykernel", none, []⟩)])], none⟩

/-- Catalog sections with an infrastructure script and an atmosphere
script. -/
def csC3 : Sections :=
  [("infrastructure", [("setup", infoBase)]), ("atmosphere", [("plot_atm", infoBase)])]

/-- Only the atmosphere component selected. -/
def flagsAtm : Flags := { flagsNone with atmosphere := true }

/-- A control structure with no task sections at all. -/
def ctrlTriv : Control := ⟨dsTriv, none, none, none, none⟩

/-- Serial flag set, one notebook task and one script task, empty loaded
global parameters. -/
def flagsC7 : Flags := { flagsNone with serial := true }

/-- Control structure for observing the global-parameters flow. -/
def ctrlC7 : Control :=
  ⟨dsTriv, some [], some [("base", true)],
   some [("infrastructure", [("nb1", infoBase)])],
   some [("infrastructure", [("sc1", infoBase)])]⟩

/-- Atmosphere task entry distinguishable from the infrastructure one. -/
def infoAtm : TaskInfo := ⟨"base", none, [("src", "atm")]⟩

/-- Infrastructure task entry distinguishable from the atmosphere one. -/
def infoInfra : TaskInfo := ⟨"base", none, [("src", "infra")]⟩

/-- Sections where the same task name appears in a category listed before
infrastructure in configuration order. -/
def cnC8 : Sections :=
  [("atmosphere", [("t", infoAtm)]), ("infrastructure", [("t", infoInfra)])]

/-- Control with a catalog path and subset search parameters. -/
def ctrlC9 : Control :=
  ⟨⟨"/r", "case", "/nb", some "/cats/mycat.json", some [("case", "x")]⟩,
   none, some [("base", true)],
   some [("infrastructure", [("nb1", infoBase)])], none⟩

/-- A task declaring a dependency on a name not among the supplied tasks. -/
def tasksC4 : List (String × TaskInfo) := [("plot_atm", ⟨"base", some "missing_task", []⟩)]

/-- Two tasks depending on each other. -/
def tasksC5 : List (String × TaskInfo) :=
  [("a", ⟨"base", some "b", []⟩), ("b", ⟨"base", some "a", []⟩)]

/-- The result of running `ctrlTriv` with no flags. -/
def rTriv : RunResult := ⟨ExecKind.serial, none, [], [], [], [], true⟩

/-- The notebook task created from `ctrlC7`. -/
def nbTaskC7 : NbTask :=
  ⟨"nb1", infoBase, none, "/nb", "/r/computed_notebooks/case", [("serial", GVal.b true)], none⟩

/-- The script task created from `ctrlC7`: although the script stage never
writes the serial key, it receives the mapping already mutated by the
notebook stage. -/
def scTaskC7 : ScriptTask :=
  ⟨"sc1", infoBase, none, "/nb", [("serial", GVal.b true)], none⟩

/-- The result of running `ctrlC7` with the serial flag. -/
def rC7 : RunResult := ⟨ExecKind.serial, none, [], [], [nbTaskC7], [scTaskC7], true⟩

/-- The notebook task created from `ctrlC9`, carrying the subset catalog
path. -/
def nbTaskC9 : NbTask :=
  ⟨"nb1", infoBase, some "/r/temp_data/mycat_subset.json", "/nb",
   "/r/computed_notebooks/case", [("serial", GVal.b false)], none⟩

/-- The result of running `ctrlC9` with no flags. -/
def rC9 : RunResult :=
  ⟨ExecKind.serial, some "/r/temp_data/mycat_subset.json",
   [⟨"/r/temp_data", "mycat_subset", "file"⟩], [], [nbTaskC9], [], true⟩

/-! ## Lemmas on the ordered-dict primitives -/

theorem lookupA_append {α : Type} (d es : List (String × α)) (k : String) :
    lookupA (d ++ es) k = (lookupA d k).or (lookupA es k) := by
  induction d with
  | nil => simp [lookupA]
  | cons p rest ih =>
    by_cases h : p.1 = k
    · simp [lookupA, h]
    · simp [lookupA, h, ih]

theorem lookupA_eq_none {α : Type} (d : List (String × α)) (k : String)
    (h : hasKeyA d k = false) : lookupA d k = none := by
  induction d with
  | nil => rfl
  | cons p rest ih =>
    unfold hasKeyA at h
    rw [List.any_cons] at h
    rcases Bool.or_eq_false_iff.mp h with ⟨h1, h2⟩
    have hne : p.1 ≠ k := beq_eq_false_iff_ne.mp h1
    rw [lookupA, if_neg hne]
    exact ih h2

theorem lookupA_map_replace_ne {α : Type} (d : List (String × α)) (k k' : String) (v : α)
    (hne : k' ≠ k) :
    lookupA (d.map (fun p => if p.1 = k then (k, v) else p)) k' = lookupA d k' := by
  induction d with
  | nil => rfl
  | cons p rest ih =>
    by_cases hp : p.1 = k
    · have : k ≠ k' := fun h => hne h.symm
      simp [lookupA, hp, this, ih]
    · by_cases hk : p.1 = k' <;> simp [lookupA, hp, hk, hne, ih]

theorem lookupA_map_replace_eq {α : Type} (d : List (String × α)) (k : String) (v : α)
    (h : hasKeyA d k = true) :
    lookupA (d.map (fun p => if p.1 = k then (k, v) else p)) k = some v := by
  induction d with
  | nil => simp [hasKeyA] at h
  | cons p rest ih =>
    by_cases hp : p.1 = k
    · simp [lookupA, hp]
    · unfold hasKeyA at h
      rw [List.any_cons] at h
      rcases Bool.or_eq_true_iff.mp h with h1 | h2
      · exact absurd (beq_iff_eq.mp h1) hp
      · simp [lookupA, hp, ih h2]

theorem lookupA_dinsert {α : Type} (d : List (String × α)) (k k' : String) (v : α) :
    lookupA (dinsert d k v) k' = if k' = k then some v else lookupA d k' := by
  unfold dinsert
  by_cases h : hasKeyA d k = true
  · rw [if_pos h]
    by_cases hk : k' = k
    · subst hk
      rw [if_pos rfl, lookupA_map_replace_eq _ _ _ h]
    · rw [if_neg hk, lookupA_map_replace_ne _ _ _ _ hk]
  · have hb : hasKeyA d k = false := Bool.eq_false_iff.mpr h
    rw [if_neg h, lookupA_append]
    by_cases hk : k' = k
    · subst hk
      rw [lookupA_eq_none _ _ hb]
      simp [lookupA]
    · have : k ≠ k' := fun hcontra => hk hcontra.symm
      rw [if_neg hk]
      cases hl : lookupA d k' <;> simp [lookupA, this, hl]

theorem hasKeyA_iff_lookup {α : Type} (d : List (String × α)) (k : String) :
    hasKeyA d k = true ↔ (lookupA d k).isSome := by
  induction d with
  | nil => simp [hasKeyA, lookupA]
  | cons p rest ih =>
    by_cases hp : p.1 = k <;>
      simp [hasKeyA, lookupA, List.any_cons, hp, ← ih]

theorem hasKeyA_dinsert_self {α : Type} (d : List (String × α)) (k : String) (v : α) :
    hasKeyA (dinsert d k v) k = true := by
  rw [hasKeyA_iff_lookup, lookupA_dinsert, if_pos rfl]
  rfl

theorem hasKeyA_dinsert_of {α : Type} (d : List (String × α)) (k k' : String) (v : α)
    (h : hasKeyA d k' = true) : hasKeyA (dinsert d k v) k' = true := by
  rw [hasKeyA_iff_lookup, lookupA_dinsert]
  by_cases hk : k' = k
  · rw [if_pos hk]; rfl
  · rw [if_neg hk]
    exact (hasKeyA_iff_lookup d k').mp h

theorem dinsert_of_hasKey {α : Type} (d : List (String × α)) (k : String) (v : α)
    (h : hasKeyA d k = true) :
    dinsert d k v = d.map (fun p => if p.1 = k then (k, v) else p) := by
  unfold dinsert
  rw [if_pos h]

theorem map_id_of_no_key {α : Type} (d : List (String × α)) (k : String) (v : α)
    (h : hasKeyA d k = false) :
    d.map (fun p => if p.1 = k then (k, v) else p) = d := by
  induction d with
  | nil => rfl
  | cons p rest ih =>
    unfold hasKeyA at h
    rw [List.any_cons] at h
    rcases Bool.or_eq_false_iff.mp h with ⟨h1, h2⟩
    have hne : p.1 ≠ k := beq_eq_false_iff_ne.mp h1
    simp only [List.map_cons, if_neg hne]
    rw [ih h2]

theorem map_replace_dinsert {α : Type} (d : List (String × α)) (k : String) (v : α) :
    (dinsert d k v).map (fun p => if p.1 = k then (k, v) else p) = dinsert d k v := by
  unfold dinsert
  by_cases h : hasKeyA d k = true
  · rw [if_pos h, List.map_map]
    apply List.map_congr_left
    intro p _
    by_cases hp : p.1 = k <;> simp [Function.comp, hp]
  · rw [if_neg h, List.map_append, map_id_of_no_key _ _ _ (Bool.eq_false_iff.mpr h)]
    simp

theorem dinsert_idem {α : Type} (d : List (String × α)) (k : String) (v : α) :
    dinsert (dinsert d k v) k v = dinsert d k v := by
  rw [dinsert_of_hasKey _ _ _ (hasKeyA_dinsert_self d k v), map_replace_dinsert]

theorem dmergeList_cons (d : Category) (e : String × TaskInfo) (es : Category) :
    dmergeList d (e :: es) = dmergeList (dinsert d e.1 e.2) es := rfl

theorem dmergeList_append (d : Category) (xs ys : Category) :
    dmergeList d (xs ++ ys) = dmergeList (dmergeList d xs) ys := by
  unfold dmergeList
  exact List.foldl_append _ _ _ _

theorem lastWrite_cons (k : String) (e : String × TaskInfo) (es : Category) :
    lastWrite k (e :: es) = (lastWrite k es).or (if e.1 = k then some e.2 else none) := by
  unfold lastWrite
  rw [List.reverse_cons, List.find?_append]
  cases hf : es.reverse.find? (fun p => p.1 == k) with
  | none =>
    by_cases he : e.1 = k
    · simp [List.find?, he]
    · simp [List.find?, he, beq_eq_false_iff_ne.mpr he]
  | some p => simp

theorem lookupA_dmergeList (d : Category) (es : Category) (k : String) :
    lookupA (dmergeList d es) k = (lastWrite k es).or (lookupA d k) := by
  induction es generalizing d with
  | nil => rfl
  | cons e rest ih =>
    rw [dmergeList_cons, ih, lookupA_dinsert, lastWrite_cons]
    cases hl : lastWrite k rest with
    | some p => simp
    | none =>
      by_cases he : e.1 = k
      · rw [if_pos he.symm, if_pos he]
        simp
      · rw [if_neg (fun hc => he hc.symm), if_neg he]
        simp

theorem hasKeyA_dmergeList_of_base (d es : Category) (k : String)
    (h : hasKeyA d k = true) : hasKeyA (dmergeList d es) k = true := by
  induction es generalizing d with
  | nil => exact h
  | cons e rest ih =>
    rw [dmergeList_cons]
    exact ih _ (hasKeyA_dinsert_of _ _ _ _ h)

theorem lastWrite_isSome_of_hasKey (es : Category) (k : String)
    (h : hasKeyA es k = true) : ∃ v, lastWrite k es = some v := by
  unfold hasKeyA at h
  rw [List.any_eq_true] at h
  obtain ⟨p, hp, hpk⟩ := h
  have hs : (es.reverse.find? (fun p => p.1 == k)).isSome :=
    List.find?_isSome.mpr ⟨p, List.mem_reverse.mpr hp, hpk⟩
  cases hf : es.reverse.find? (fun p => p.1 == k) with
  | none => rw [hf] at hs; simp at hs
  | some q =>
    refine ⟨q.2, ?_⟩
    unfold lastWrite
    rw [hf]
    rfl

theorem hasKeyA_dmergeList_of_entries (d es : Category) (k : String)
    (h : hasKeyA es k = true) : hasKeyA (dmergeList d es) k = true := by
  obtain ⟨v, hv⟩ := lastWrite_isSome_of_hasKey es k h
  rw [hasKeyA_iff_lookup, lookupA_dmergeList, hv]
  simp

theorem foldSections_eq (cn : Sections) (init : Category) :
    cn.foldl (fun d sec => dmergeList d sec.2) init = dmergeList init (flatEntries cn) := by
  induction cn generalizing init with
  | nil => rfl
  | cons sec rest ih =>
    have hf : flatEntries (sec :: rest) = sec.2 ++ flatEntries rest := rfl
    rw [List.foldl_cons, ih, hf, dmergeList_append]

theorem envFilter_spec (env : List (String × Bool)) (mkWarn : String → String → String)
    (d : Category) :
    envFilter (some env) mkWarn d =
      if d.all (fun t => (lookupA env t.2.kernel_name).isSome) then
        .ok (d.filter (fun t => lookupA env t.2.kernel_name == some true),
             (d.filter (fun t => lookupA env t.2.kernel_name == some false)).map
               (fun t => mkWarn t.2.kernel_name t.1))
      else .error .keyError := by
  induction d with
  | nil => rfl
  | cons t rest ih =>
    cases hl : lookupA env t.2.kernel_name with
    | none => simp [envFilter, hl, List.all_cons]
    | some b =>
      cases b with
      | true =>
        by_cases hall : rest.all (fun t => (lookupA env t.2.kernel_name).isSome) = true
        · simp [envFilter, hl, ih, hall, List.all_cons, List.filter_cons]
        · have hfa : rest.all (fun t => (lookupA env t.2.kernel_name).isSome) = false :=
            Bool.eq_false_iff.mpr hall
          simp [envFilter, hl, ih, hfa, List.all_cons]
      | false =>
        by_cases hall : rest.all (fun t => (lookupA env t.2.kernel_name).isSome) = true
        · simp [envFilter, hl, ih, hall, List.all_cons, List.filter_cons]
        · have hfa : rest.all (fun t => (lookupA env t.2.kernel_name).isSome) = false :=
            Bool.eq_false_iff.mpr hall
          simp [envFilter, hl, ih, hfa, List.all_cons]

theorem mkNbTasks_aux (cat_path : Option String) (root outd : String) (serial : Bool)
    (kept : Category) (acc : List NbTask) (g gstar : List (String × GVal))
    (hg : dinsert g "serial" (GVal.b serial) = gstar)
    (hstar : dinsert gstar "serial" (GVal.b serial) = gstar) :
    (kept.foldl
      (fun acc t =>
        (acc.1 ++ [⟨t.1, t.2, cat_path, root, outd,
                    dinsert acc.2 "serial" (GVal.b serial), t.2.dependency⟩],
         dinsert acc.2 "serial" (GVal.b serial)))
      (acc, g)) =
    (acc ++ kept.map (fun t => ⟨t.1, t.2, cat_path, root, outd, gstar, t.2.dependency⟩),
     if kept.isEmpty then g else gstar) := by
  induction kept generalizing acc g with
  | nil => simp
  | cons t rest ih =>
    simp only [List.foldl_cons]
    rw [hg]
    rw [ih _ gstar hstar]
    simp [List.isEmpty_cons]

theorem mkNbTasks_eq (kept : Category) (cat_path : Option String) (root outd : String)
    (gp0 : List (String × GVal)) (serial : Bool) :
    mkNbTasks kept cat_path root outd gp0 serial =
      (kept.map (fun t =>
         ⟨t.1, t.2, cat_path, root, outd, dinsert gp0 "serial" (GVal.b serial), t.2.dependency⟩),
       if kept.isEmpty then gp0 else dinsert gp0 "serial" (GVal.b serial)) := by
  unfold mkNbTasks
  have h := mkNbTasks_aux cat_path root outd serial kept [] gp0
    (dinsert gp0 "serial" (GVal.b serial)) rfl (dinsert_idem _ _ _)
  simpa using h

/-! ## Selection-equality lemmas -/

theorem effAll_true_of_noComp (f : Flags) (h1 : f.atmosphere = false) (h2 : f.ocean = false)
    (h3 : f.land = false) (h4 : f.seaice = false) (h5 : f.landice = false) :
    effAll f = true := by
  simp [effAll, h1, h2, h3, h4, h5]

theorem effAll_allSet (f : Flags) : effAll (allSet f) = true := by
  simp [effAll, allSet]

theorem nbMerge_effAll_eq (cn : Sections) (f g : Flags)
    (hf : effAll f = true) (hg : effAll g = true) : nbMerge cn f = nbMerge cn g := by
  unfold nbMerge
  cases lookupA cn "infrastructure" with
  | none => rfl
  | some infra => simp [hf, hg]

theorem scriptMerge_effAll_eq (cs : Sections) (f g : Flags)
    (hf : effAll f = true) (hg : effAll g = true) : scriptMerge cs f = scriptMerge cs g := by
  unfold scriptMerge
  simp [hf, hg]

theorem nbStage_selection_eq (cnOpt : Option Sections) (envOpt : Option (List (String × Bool)))
    (cp : Option String) (root od : String) (gp : List (String × GVal)) (f g : Flags)
    (hser : f.serial = g.serial) (hf : effAll f = true) (hg : effAll g = true) :
    nbStage cnOpt envOpt f cp root od gp = nbStage cnOpt envOpt g cp root od gp := by
  unfold nbStage
  cases cnOpt with
  | none => rfl
  | some cn =>
    dsimp only
    rw [nbMerge_effAll_eq cn f g hf hg]
    simp only [hser]

theorem scriptStage_selection_eq (csOpt : Option Sections)
    (envOpt : Option (List (String × Bool))) (cp : Option String) (root : String)
    (gp : List (String × GVal)) (f g : Flags)
    (hf : effAll f = true) (hg : effAll g = true) :
    scriptStage csOpt envOpt f cp root gp = scriptStage csOpt envOpt g cp root gp := by
  unfold scriptStage
  cases csOpt with
  | none => rfl
  | some cs =>
    dsimp only
    rw [scriptMerge_effAll_eq cs f g hf hg]

theorem runPyCore_selection_eq (resolve : String → String) (control : Control) (f g : Flags)
    (hser : f.serial = g.serial) (hf : effAll f = true) (hg : effAll g = true) :
    runPyCore resolve f control = runPyCore resolve g control := by
  have hnb := fun cnOpt envOpt cp root od gp =>
    nbStage_selection_eq cnOpt envOpt cp root od gp f g hser hf hg
  have hscr := fun csOpt envOpt cp root gp =>
    scriptStage_selection_eq csOpt envOpt cp root gp f g hf hg
  unfold runPyCore
  simp only [hnb, hscr]

/-! ## Claim C2 -/

/-- C2: for every control structure (and any configuration outcome), when
no component flag (atmosphere, ocean, land, seaice, landice) is set, the
entire run — in particular the built notebook task universe and the built
script task universe — equals the run with every selection flag explicitly
set (`allSet`), because both sections independently recompute the same
effective select-all condition. -/
theorem c2_no_flags_equals_all_flags (resolve : String → String) (flags : Flags)
    (config : Except RunError Control)
    (h1 : flags.atmosphere = false) (h2 : flags.ocean = false) (h3 : flags.land = false)
    (h4 : flags.seaice = false) (h5 : flags.landice = false) :
    runPy resolve flags config = runPy resolve (allSet flags) config := by
  have hf : effAll flags = true := effAll_true_of_noComp flags h1 h2 h3 h4 h5
  have hg : effAll (allSet flags) = true := effAll_allSet flags
  unfold runPy
  rw [show (allSet flags).time_series = flags.time_series from rfl]
  by_cases hts : flags.time_series = true
  · rw [if_pos hts, if_pos hts]
  · rw [if_neg hts, if_neg hts]
    cases config with
    | error e => rfl
    | ok control =>
      dsimp only
      rw [runPyCore_selection_eq resolve control flags (allSet flags) rfl hf hg]

/-- Witness for C2 at a concrete control structure. -/
theorem c2_no_flags_equals_all_flags_witness :
    runPy id flagsNone (.ok ctrlTriv) = runPy id (allSet flagsNone) (.ok ctrlTriv) :=
  c2_no_flags_equals_all_flags id flagsNone (.ok ctrlTriv) rfl rfl rfl rfl rfl

/-! ## Claim C10 -/

/-- C10: with the --time-series flag set the run raises
`NotImplementedError` at once — the outcome is the same for every
configuration outcome, including a failing configuration load, so nothing
is loaded and no task is created or executed — and `sys.tracebacklimit` is
set to 0, so no stack trace is exposed. -/
theorem c10_time_series_aborts (resolve : String → String) (flags : Flags)
    (config : Except RunError Control) (h : flags.time_series = true) :
    runPy resolve flags config = ⟨.error .notImplementedError, some 0⟩ := by
  unfold runPy
  rw [if_pos h]

/-- Witness for C10: even a configuration whose load fails is never
consulted. -/
theorem c10_time_series_aborts_witness :
    runPy id { flagsNone with time_series := true } (.error .configError) =
      ⟨.error .notImplementedError, some 0⟩ :=
  c10_time_series_aborts id { flagsNone with time_series := true } (.error .configError) rfl

/-! ## Claim C1 -/

/-- C1 counterexample: in `ctrlC1` the notebook `nb1` requires kernel
`mykernel`, which is not present at all in the environment-availability
mapping; the run raises `KeyError` (source line 131 indexes
`control["env_check"][info["kernel_name"]]`) instead of warning and
excluding the task, contradicting "never raises an exception or aborts the
run because of an unavailable or unknown runtime". -/
theorem c1_unknown_kernel_raises :
    (runPy id flagsNone (.ok ctrlC1)).result = .error RunError.keyError := by rfl

/-- C1 (amended): for tasks whose kernel name is present in the
environment mapping, the filter never raises: tasks mapped to `false` are
excluded with one non-fatal warning each (in merge order) and tasks mapped
to `true` are kept; but if any task's kernel name is absent from the
mapping, the filter raises `KeyError` and the run aborts. -/
theorem c1_env_filter_behavior (env : List (String × Bool))
    (mkWarn : String → String → String) (d : Category) :
    envFilter (some env) mkWarn d =
      if d.all (fun t => (lookupA env t.2.kernel_name).isSome) then
        .ok (d.filter (fun t => lookupA env t.2.kernel_name == some true),
             (d.filter (fun t => lookupA env t.2.kernel_name == some false)).map
               (fun t => mkWarn t.2.kernel_name t.1))
      else .error .keyError :=
  envFilter_spec env mkWarn d

/-! ## Result-decomposition lemmas -/

theorem runPyCore_ok_elim (resolve : String → String) (f : Flags) (control : Control)
    (r : RunResult) (h : runPyCore resolve f control = .ok r) :
    ∃ nbT ws1 gp1 sT ws2,
      nbStage control.compute_notebooks control.env_check f (catOf resolve control).1
        (rootOf resolve control) (outputDirOf resolve control) (gp0Of control) =
          .ok (nbT, ws1, gp1) ∧
      scriptStage control.compute_scripts control.env_check f (catOf resolve control).1
        (rootOf resolve control) gp1 = .ok (sT, ws2) ∧
      r = ⟨ExecKind.serial, (catOf resolve control).1, (catOf resolve control).2,
           ws1 ++ ws2, nbT, sT, true⟩ := by
  unfold runPyCore at h
  split at h
  · simp at h
  · rename_i nbT ws1 gp1 hnb
    split at h
    · simp at h
    · rename_i sT ws2 hscr
      exact ⟨nbT, ws1, gp1, sT, ws2, hnb, hscr, (Except.ok.inj h).symm⟩

theorem nbStage_ok_shape (cnOpt : Option Sections) (envOpt : Option (List (String × Bool)))
    (f : Flags) (cp : Option String) (root od : String) (gp : List (String × GVal))
    (nbT : List NbTask) (ws : List String) (gp' : List (String × GVal))
    (h : nbStage cnOpt envOpt f cp root od gp = .ok (nbT, ws, gp')) :
    (nbT = [] ∧ gp' = gp) ∨
    (nbT ≠ [] ∧ gp' = dinsert gp "serial" (GVal.b f.serial) ∧
     ∀ t ∈ nbT, t.global_params = dinsert gp "serial" (GVal.b f.serial)) := by
  cases cnOpt with
  | none =>
    have h' := (Except.ok.inj h).symm
    simp only [Prod.mk.injEq] at h'
    exact Or.inl ⟨h'.1, h'.2.2⟩
  | some cn =>
    unfold nbStage at h
    dsimp only at h
    split at h
    · simp at h
    · rename_i merged ws1 hmerge
      split at h
      · simp at h
      · rename_i kept ws2 hfilter
        rw [mkNbTasks_eq] at h
        have h' := (Except.ok.inj h).symm
        simp only [Prod.mk.injEq] at h'
        obtain ⟨hT, hw, hg⟩ := h'
        cases kept with
        | nil =>
          left
          constructor
          · rw [hT]; rfl
          · rw [hg]; rfl
        | cons t rest =>
          right
          refine ⟨?_, ?_, ?_⟩
          · rw [hT]; simp
          · rw [hg]; simp
          · intro u hu
            rw [hT] at hu
            simp only [List.mem_map] at hu
            obtain ⟨p, _, hp⟩ := hu
            rw [← hp]

theorem scriptStage_ok_shape (csOpt : Option Sections) (envOpt : Option (List (String × Bool)))
    (f : Flags) (cp : Option String) (root : String) (gp : List (String × GVal))
    (sT : List ScriptTask) (ws : List String)
    (h : scriptStage csOpt envOpt f cp root gp = .ok (sT, ws)) :
    ∀ s ∈ sT, s.global_params = gp := by
  cases csOpt with
  | none =>
    have h' := (Except.ok.inj h).symm
    simp only [Prod.mk.injEq] at h'
    intro s hs
    rw [h'.1] at hs
    simp at hs
  | some cs =>
    unfold scriptStage at h
    dsimp only at h
    split at h
    · simp at h
    · rename_i kept ws2 hfilter
      have h' := (Except.ok.inj h).symm
      simp only [Prod.mk.injEq] at h'
      intro s hs
      rw [h'.1] at hs
      simp only [List.mem_map] at hs
      obtain ⟨p, _, hp⟩ := hs
      rw [← hp]

/-! ## Claim C6 -/

/-- C6 counterexample: with the --serial flag not set, the executor
attached to the DAG is still the serial one — source line 90 constructs
`ploomber.DAG(executor=ploomber.executors.Serial())` unconditionally — so
the execution mode is not determined by the flag and independent tasks are
never dispatched to the parallel-execution resource. -/
theorem c6_executor_ignores_serial_flag :
    (runPy id flagsNone (.ok ctrlTriv)).result = .ok rTriv ∧
    flagsNone.serial = false ∧
    rTriv.executor = ExecKind.serial ∧
    ExecKind.serial ≠ ExecKind.distributed :=
  ⟨rfl, rfl, rfl, by decide⟩

/-- C6 (amended): for every flags value and configuration, a successful
run always carries the serial DAG executor; the --serial flag only
determines the boolean stored under the "serial" key of every notebook
task's parameter mapping (source line 140), which the tasks themselves
consume. -/
theorem c6_executor_always_serial (resolve : String → String) (f : Flags)
    (config : Except RunError Control) (r : RunResult)
    (h : (runPy resolve f config).result = .ok r) :
    r.executor = ExecKind.serial ∧
    ∀ t ∈ r.nb_tasks, lookupA t.global_params "serial" = some (GVal.b f.serial) := by
  unfold runPy at h
  by_cases hts : f.time_series = true
  · rw [if_pos hts] at h
    simp at h
  · rw [if_neg hts] at h
    cases config with
    | error e => simp at h
    | ok control =>
      dsimp only at h
      obtain ⟨nbT, ws1, gp1, sT, ws2, hnb, hscr, hr⟩ := runPyCore_ok_elim resolve f control r h
      have hexec : r.executor = ExecKind.serial := by rw [hr]
      have hrnb : r.nb_tasks = nbT := by rw [hr]
      refine ⟨hexec, ?_⟩
      intro t ht
      rw [hrnb] at ht
      rcases nbStage_ok_shape _ _ _ _ _ _ _ _ _ _ hnb with ⟨hnil, _⟩ | ⟨_, _, hall⟩
      · rw [hnil] at ht
        simp at ht
      · rw [hall t ht, lookupA_dinsert, if_pos rfl]

/-- Witness for C6 at a concrete successful run. -/
theorem c6_executor_always_serial_witness :
    rTriv.executor = ExecKind.serial ∧
    ∀ t ∈ rTriv.nb_tasks, lookupA t.global_params "serial" = some (GVal.b flagsNone.serial) :=
  c6_executor_always_serial id flagsNone (.ok ctrlTriv) rTriv rfl

/-! ## Claim C7 -/

/-- C7 counterexample: the loaded global-parameters mapping of `ctrlC7` is
empty, yet the parameters handed to the notebook task contain the key
"serial" — the task-setup stage writes `global_params['serial'] = serial`
(source line 140) — and the script task, whose stage never writes that
key, receives the same mutated mapping; so the global-parameters mapping
is neither read-only after loading nor independently computed per task. -/
theorem c7_global_params_mutated :
    (runPy id flagsC7 (.ok ctrlC7)).result = .ok rC7 ∧
    ctrlC7.global_params = some [] ∧
    rC7.nb_tasks.map (fun t => t.global_params) = [[("serial", GVal.b true)]] ∧
    rC7.script_tasks.map (fun s => s.global_params) = [[("serial", GVal.b true)]] ∧
    [[("serial", GVal.b true)]] ≠ ([[]] : List (List (String × GVal))) :=
  ⟨rfl, rfl, rfl, rfl, by decide⟩

/-- C7 (amended): the control structure is a read-only input in every
stage (the embedding never rebuilds it), but the global-parameters mapping
is written once per notebook task created — the serial flag is inserted
under the key "serial" — and the same (possibly mutated) mapping state is
what script tasks then receive: with at least one notebook task, script
tasks see the mapping including the notebook stage's insertion; with none,
they see the loaded mapping unchanged. -/
theorem c7_global_params_flow (resolve : String → String) (f : Flags) (control : Control)
    (r : RunResult) (h : (runPy resolve f (.ok control)).result = .ok r) :
    (∀ t ∈ r.nb_tasks, t.global_params = dinsert (gp0Of control) "serial" (GVal.b f.serial)) ∧
    (r.nb_tasks ≠ [] →
      ∀ s ∈ r.script_tasks, s.global_params = dinsert (gp0Of control) "serial" (GVal.b f.serial)) ∧
    (r.nb_tasks = [] → ∀ s ∈ r.script_tasks, s.global_params = gp0Of control) := by
  unfold runPy at h
  by_cases hts : f.time_series = true
  · rw [if_pos hts] at h
    simp at h
  · rw [if_neg hts] at h
    dsimp only at h
    obtain ⟨nbT, ws1, gp1, sT, ws2, hnb, hscr, hr⟩ := runPyCore_ok_elim resolve f control r h
    have hrnb : r.nb_tasks = nbT := by rw [hr]
    have hrsc : r.script_tasks = sT := by rw [hr]
    have hscrAll := scriptStage_ok_shape _ _ _ _ _ _ _ _ hscr
    rcases nbStage_ok_shape _ _ _ _ _ _ _ _ _ _ hnb with ⟨hnil, hgp⟩ | ⟨hne, hgp, hall⟩
    · refine ⟨?_, ?_, ?_⟩
      · intro t ht
        rw [hrnb, hnil] at ht
        simp at ht
      · intro hcon
        rw [hrnb, hnil] at hcon
        exact absurd rfl hcon
      · intro _ s hs
        rw [hrsc] at hs
        exact (hscrAll s hs).trans hgp
    · refine ⟨?_, ?_, ?_⟩
      · intro t ht
        rw [hrnb] at ht
        exact hall t ht
      · intro _ s hs
        rw [hrsc] at hs
        exact (hscrAll s hs).trans hgp
      · intro hcon
        rw [hrnb] at hcon
        exact absurd hcon hne

/-- Witness for C7 at a concrete run with one notebook task and one script
task. -/
theorem c7_global_params_flow_witness :
    (∀ t ∈ rC7.nb_tasks, t.global_params = dinsert (gp0Of ctrlC7) "serial" (GVal.b flagsC7.serial)) ∧
    (rC7.nb_tasks ≠ [] →
      ∀ s ∈ rC7.script_tasks, s.global_params = dinsert (gp0Of ctrlC7) "serial" (GVal.b flagsC7.serial)) ∧
    (rC7.nb_tasks = [] → ∀ s ∈ rC7.script_tasks, s.global_params = gp0Of ctrlC7) :=
  c7_global_params_flow id flagsC7 ctrlC7 rC7 rfl

/-! ## Claim C3 -/

theorem hasKeyA_mergeSelected (cn : Sections) (init : Category)
    (opts : List (String × Bool)) (mkWarn : String → String) (k : String)
    (h : hasKeyA init k = true) :
    hasKeyA (mergeSelected cn init opts mkWarn).1 k = true := by
  induction opts generalizing init with
  | nil => exact h
  | cons o rest ih =>
    unfold mergeSelected
    by_cases ho : o.2 = true
    · rw [if_pos ho]
      cases hc : lookupA cn o.1 with
      | some cat => exact ih _ (hasKeyA_dmergeList_of_base _ _ _ h)
      | none =>
        dsimp only
        exact ih _ h
    · rw [if_neg ho]
      exact ih _ h

theorem nbMerge_some (cn : Sections) (infra : Category) (flags : Flags)
    (hinfra : lookupA cn "infrastructure" = some infra) :
    nbMerge cn flags =
      if effAll flags then
        .ok (cn.foldl (fun d sec => dmergeList d sec.2) (dmergeList [] infra), [])
      else .ok (mergeSelected cn (dmergeList [] infra) (componentOptions flags) noNbWarning) := by
  unfold nbMerge
  rw [hinfra]

/-- C3 counterexample: with only the atmosphere flag set, the script
universe built from `csC3` omits the infrastructure script `setup` — the
script branch (source lines 153-172) has no unconditional infrastructure
merge — although the notebook merge applied to the same sections with the
same flags does include it; so infrastructure script tasks are not always
included, and the two universes are not built by an identical algorithm. -/
theorem c3_script_infra_excluded :
    lookupA csC3 "infrastructure" = some [("setup", infoBase)] ∧
    lookupA (scriptMerge csC3 flagsAtm).1 "setup" = none ∧
    nbMerge csC3 flagsAtm = .ok ([("setup", infoBase), ("plot_atm", infoBase)], []) :=
  ⟨rfl, rfl, rfl⟩

/-- C3 (amended): every task name listed under the infrastructure category
is present in the merged notebook universe whatever the component flags
(environment filtering applies afterwards); the script universe is built
by a different algorithm without this unconditional inclusion, as the
counterexample shows. -/
theorem c3_notebook_infra_always_included (cn : Sections) (flags : Flags)
    (infra : Category) (name : String)
    (hinfra : lookupA cn "infrastructure" = some infra)
    (hname : hasKeyA infra name = true) :
    ∃ d ws, nbMerge cn flags = .ok (d, ws) ∧ hasKeyA d name = true := by
  rw [nbMerge_some cn infra flags hinfra]
  have hinit : hasKeyA (dmergeList [] infra) name = true :=
    hasKeyA_dmergeList_of_entries [] infra name hname
  by_cases hall : effAll flags = true
  · rw [if_pos hall]
    refine ⟨_, _, rfl, ?_⟩
    rw [foldSections_eq]
    exact hasKeyA_dmergeList_of_base _ _ _ hinit
  · rw [if_neg hall]
    exact ⟨(mergeSelected cn (dmergeList [] infra) (componentOptions flags) noNbWarning).1,
           (mergeSelected cn (dmergeList [] infra) (componentOptions flags) noNbWarning).2,
           rfl, hasKeyA_mergeSelected _ _ _ _ _ hinit⟩

/-- Witness for C3 (amended) on concrete sections with a component flag
set. -/
theorem c3_notebook_infra_always_included_witness :
    ∃ d ws, nbMerge csC3 flagsAtm = .ok (d, ws) ∧ hasKeyA d "setup" = true :=
  c3_notebook_infra_always_included csC3 flagsAtm [("setup", infoBase)] "setup" rfl rfl

/-! ## Claim C8 -/

/-- C8 counterexample: in `cnC8` the task name `t` appears both under
`atmosphere` (listed before `infrastructure` in configuration order) and
under `infrastructure`.  The select-all merge of the source ends with the
infrastructure entry, because line 115 iterates over every category —
infrastructure included, at its configured position — after the
infrastructure pre-merge; the order the claim describes (infrastructure
first, then only the remaining categories) would end with the atmosphere
entry instead. -/
theorem c8_merge_order_differs :
    nbMerge cnC8 flagsNone = .ok ([("t", infoInfra)], []) ∧
    lookupA (claimOrderMerge cnC8) "t" = some infoAtm ∧
    infoInfra ≠ infoAtm :=
  ⟨rfl, rfl, by decide⟩

/-- C8 (amended): on the select-all path the merged notebook universe is
the last-write-wins fold of the infrastructure entries followed by the
entries of every category in configuration order — the infrastructure
category is iterated again at its configured position — and looking up any
name returns the last entry written for it in that sequence. -/
theorem c8_last_write_wins (cn : Sections) (flags : Flags) (infra : Category) (k : String)
    (hinfra : lookupA cn "infrastructure" = some infra)
    (hall : effAll flags = true) :
    nbMerge cn flags = .ok (dmergeList [] (infra ++ flatEntries cn), []) ∧
    lookupA (dmergeList [] (infra ++ flatEntries cn)) k =
      lastWrite k (infra ++ flatEntries cn) := by
  constructor
  · rw [nbMerge_some cn infra flags hinfra, if_pos hall, foldSections_eq, ← dmergeList_append]
  · rw [lookupA_dmergeList]
    rw [show lookupA ([] : Category) k = none from rfl, Option.or_none]

/-- Witness for C8 (amended) at the concrete colliding sections. -/
theorem c8_last_write_wins_witness :
    nbMerge cnC8 flagsNone = .ok (dmergeList [] ([("t", infoInfra)] ++ flatEntries cnC8), []) ∧
    lookupA (dmergeList [] ([("t", infoInfra)] ++ flatEntries cnC8)) "t" =
      lastWrite "t" ([("t", infoInfra)] ++ flatEntries cnC8) :=
  c8_last_write_wins cnC8 flagsNone [("t", infoInfra)] "t" rfl rfl

/-! ## Claim C9 -/

theorem catOf_subset (resolve : String → String) (control : Control)
    (p : String) (sub : List (String × String))
    (hp : control.data_sources.path_to_cat_json = some p)
    (hs : control.data_sources.subset = some sub) :
    catOf resolve control =
      (some (tempDataOf resolve control ++ "/" ++ (catStem (resolve p) ++ "_subset") ++ ".json"),
       [⟨tempDataOf resolve control, catStem (resolve p) ++ "_subset", "file"⟩]) := by
  unfold catOf catStage
  rw [hp]
  dsimp only
  rw [hs]

theorem nbStage_ok_catpath (cnOpt : Option Sections) (envOpt : Option (List (String × Bool)))
    (f : Flags) (cp : Option String) (root od : String) (gp : List (String × GVal))
    (nbT : List NbTask) (ws : List String) (gp' : List (String × GVal))
    (h : nbStage cnOpt envOpt f cp root od gp = .ok (nbT, ws, gp')) :
    ∀ t ∈ nbT, t.cat_path = cp := by
  cases cnOpt with
  | none =>
    have h' := (Except.ok.inj h).symm
    simp only [Prod.mk.injEq] at h'
    intro t ht
    rw [h'.1] at ht
    simp at ht
  | some cn =>
    unfold nbStage at h
    dsimp only at h
    split at h
    · simp at h
    · rename_i merged ws1 hmerge
      split at h
      · simp at h
      · rename_i kept ws2 hfilter
        rw [mkNbTasks_eq] at h
        have h' := (Except.ok.inj h).symm
        simp only [Prod.mk.injEq] at h'
        intro t ht
        rw [h'.1] at ht
        simp only [List.mem_map] at ht
        obtain ⟨q, _, hq⟩ := ht
        rw [← hq]

theorem scriptStage_ok_catpath (csOpt : Option Sections) (envOpt : Option (List (String × Bool)))
    (f : Flags) (cp : Option String) (root : String) (gp : List (String × GVal))
    (sT : List ScriptTask) (ws : List String)
    (h : scriptStage csOpt envOpt f cp root gp = .ok (sT, ws)) :
    ∀ s ∈ sT, s.cat_path = cp := by
  cases csOpt with
  | none =>
    have h' := (Except.ok.inj h).symm
    simp only [Prod.mk.injEq] at h'
    intro s hs
    rw [h'.1] at hs
    simp at hs
  | some cs =>
    unfold scriptStage at h
    dsimp only at h
    split at h
    · simp at h
    · rename_i kept ws2 hfilter
      have h' := (Except.ok.inj h).symm
      simp only [Prod.mk.injEq] at h'
      intro s hs
      rw [h'.1] at hs
      simp only [List.mem_map] at hs
      obtain ⟨q, _, hq⟩ := hs
      rw [← hq]

/-- C9: when the configuration has both a catalog path and subset search
parameters, the catalog subset is serialized into the temp-data directory
`<run_dir>/temp_data` under the name `<catalog stem>_subset` (the external
serialize contract appends `.json`), the catalog path the run keeps is
`<run_dir>/temp_data/<catalog stem>_subset.json`, and exactly that path is
attached as the catalog path of every notebook task and every script
task.  The stem is the resolved catalog file name up to its first dot
(source line 71). -/
theorem c9_catalog_subset_path (resolve : String → String) (f : Flags) (control : Control)
    (r : RunResult) (p : String) (sub : List (String × String))
    (hp : control.data_sources.path_to_cat_json = some p)
    (hs : control.data_sources.subset = some sub)
    (h : (runPy resolve f (.ok control)).result = .ok r) :
    r.serialize_effects = [⟨tempDataOf resolve control, catStem (resolve p) ++ "_subset", "file"⟩] ∧
    r.cat_path = some (tempDataOf resolve control ++ "/" ++
                       (catStem (resolve p) ++ "_subset") ++ ".json") ∧
    (∀ t ∈ r.nb_tasks, t.cat_path = r.cat_path) ∧
    (∀ s ∈ r.script_tasks, s.cat_path = r.cat_path) := by
  unfold runPy at h
  by_cases hts : f.time_series = true
  · rw [if_pos hts] at h
    simp at h
  · rw [if_neg hts] at h
    dsimp only at h
    obtain ⟨nbT, ws1, gp1, sT, ws2, hnb, hscr, hr⟩ := runPyCore_ok_elim resolve f control r h
    have hcat := catOf_subset resolve control p sub hp hs
    have hrcp : r.cat_path = (catOf resolve control).1 := by rw [hr]
    have hrse : r.serialize_effects = (catOf resolve control).2 := by rw [hr]
    have hrnb : r.nb_tasks = nbT := by rw [hr]
    have hrsc : r.script_tasks = sT := by rw [hr]
    refine ⟨?_, ?_, ?_, ?_⟩
    · rw [hrse, hcat]
    · rw [hrcp, hcat]
    · intro t ht
      rw [hrnb] at ht
      rw [hrcp]
      exact nbStage_ok_catpath _ _ _ _ _ _ _ _ _ _ hnb t ht
    · intro s hs'
      rw [hrsc] at hs'
      rw [hrcp]
      exact scriptStage_ok_catpath _ _ _ _ _ _ _ _ hscr s hs'

/-- Witness for C9 at a concrete configuration with catalog and subset. -/
theorem c9_catalog_subset_path_witness :
    rC9.serialize_effects =
      [⟨tempDataOf id ctrlC9, catStem (id "/cats/mycat.json") ++ "_subset", "file"⟩] ∧
    rC9.cat_path = some (tempDataOf id ctrlC9 ++ "/" ++
                         (catStem (id "/cats/mycat.json") ++ "_subset") ++ ".json") ∧
    (∀ t ∈ rC9.nb_tasks, t.cat_path = rC9.cat_path) ∧
    (∀ s ∈ rC9.script_tasks, s.cat_path = rC9.cat_path) :=
  c9_catalog_subset_path id flagsNone ctrlC9 rC9 "/cats/mycat.json" [("case", "x")] rfl rfl rfl

/-! ## Claim C4 -/

/-- C4: any task declaring a dependency whose name is not among the
supplied tasks makes graph assembly fail with
`UnresolvedDependencyError`; the graph (and hence any execution) is never
produced. -/
theorem c4_unresolved_dependency_fails (tasks : List (String × TaskInfo))
    (t : String × TaskInfo) (d : String)
    (ht : t ∈ tasks) (hd : d ∈ depsOf t.2)
    (hmiss : (taskNames tasks).contains d = false) :
    assemble tasks = .error .unresolvedDependencyError := by
  have hsome :
      (tasks.find? (fun t => (depsOf t.2).any (fun d => !((taskNames tasks).contains d)))).isSome := by
    rw [List.find?_isSome]
    refine ⟨t, ht, ?_⟩
    rw [List.any_eq_true]
    exact ⟨d, hd, by rw [hmiss]; rfl⟩
  unfold assemble
  cases hf : tasks.find? (fun t => (depsOf t.2).any (fun d => !((taskNames tasks).contains d))) with
  | none =>
    rw [hf] at hsome
    simp at hsome
  | some u => rfl

/-- Witness for C4: `plot_atm` declares the dependency `missing_task`,
absent from the catalog. -/
theorem c4_unresolved_dependency_fails_witness :
    assemble tasksC4 = .error AssembleError.unresolvedDependencyError :=
  c4_unresolved_dependency_fails tasksC4 ("plot_atm", ⟨"base", some "missing_task", []⟩)
    "missing_task" (by decide) (by decide) (by decide)

/-! ## Claim C5 -/

theorem path_head_name (tasks : List (String × TaskInfo)) (x : String) (xs : List String)
    (b : String) (h : isPath tasks x xs b) : ∃ t ∈ tasks, t.1 = x := by
  cases xs with
  | nil =>
    unfold isPath hasEdgeB at h
    rw [List.any_eq_true] at h
    obtain ⟨t, ht, hp⟩ := h
    rw [Bool.and_eq_true] at hp
    exact ⟨t, ht, beq_iff_eq.mp hp.1⟩
  | cons y ys =>
    obtain ⟨h1, _⟩ := h
    unfold hasEdgeB at h1
    rw [List.any_eq_true] at h1
    obtain ⟨t, ht, hp⟩ := h1
    rw [Bool.and_eq_true] at hp
    exact ⟨t, ht, beq_iff_eq.mp hp.1⟩

theorem path_mem_names (tasks : List (String × TaskInfo)) (xs : List String) (b : String) :
    ∀ a, isPath tasks a xs b → ∀ x ∈ xs, ∃ t ∈ tasks, t.1 = x := by
  induction xs with
  | nil =>
    intro a _ x hx
    simp at hx
  | cons y ys ih =>
    intro a h x hx
    obtain ⟨h1, h2⟩ := h
    rcases List.mem_cons.mp hx with hxy | hx'
    · subst hxy
      exact path_head_name tasks x ys b h2
    · exact ih y h2 x hx'

theorem reachB_of_path (tasks : List (String × TaskInfo)) (xs : List String) :
    ∀ (fuel : Nat) (a b : String), xs.length ≤ fuel → isPath tasks a xs b →
      reachB tasks fuel a b = true := by
  induction xs with
  | nil =>
    intro fuel a b _ h
    cases fuel with
    | zero => exact h
    | succ n =>
      unfold reachB
      rw [Bool.or_eq_true_iff]
      exact Or.inl h
  | cons y ys ih =>
    intro fuel a b hlen h
    obtain ⟨h1, h2⟩ := h
    cases fuel with
    | zero => simp at hlen
    | succ n =>
      unfold reachB
      rw [Bool.or_eq_true_iff]
      right
      rw [List.any_eq_true]
      obtain ⟨t, ht, hty⟩ := path_head_name tasks y ys b h2
      refine ⟨t, ht, ?_⟩
      rw [Bool.and_eq_true]
      constructor
      · rw [hty]
        exact h1
      · rw [hty]
        exact ih n y b (Nat.le_of_succ_le_succ hlen) h2

/-- C5: whenever the declared dependency edges of the supplied tasks form
a cycle (a nonempty, duplicate-free closed chain of edges) and every
declared dependency resolves to a supplied task (so that assembly reaches
its cycle check rather than failing on an unresolved name first), graph
assembly fails with `CyclicDependencyError`; no graph is produced and no
task executes. -/
theorem c5_cycle_fails (tasks : List (String × TaskInfo)) (c : List String)
    (hres : ∀ t ∈ tasks, ∀ d ∈ depsOf t.2, (taskNames tasks).contains d = true)
    (hc : isCycleList tasks c) (hnd : c.Nodup) :
    assemble tasks = .error .cyclicDependencyError := by
  cases c with
  | nil => exact hc.elim
  | cons a rest =>
    obtain ⟨ta, hta, htaa⟩ := path_head_name tasks a rest a hc
    have hsub : (a :: rest) ⊆ taskNames tasks := by
      intro x hx
      rcases List.mem_cons.mp hx with hxa | hx'
      · subst hxa
        rw [← htaa]
        exact List.mem_map_of_mem _ hta
      · obtain ⟨t, ht, htx⟩ := path_mem_names tasks rest a a hc x hx'
        rw [← htx]
        exact List.mem_map_of_mem _ ht
    have hlen : (a :: rest).length ≤ (taskNames tasks).length :=
      (List.subperm_of_subset hnd hsub).length_le
    have hlen' : rest.length ≤ tasks.length := by
      have hmaplen : (taskNames tasks).length = tasks.length := List.length_map _ _
      rw [List.length_cons, hmaplen] at hlen
      omega
    have hreach : reachB tasks tasks.length a a = true :=
      reachB_of_path tasks rest tasks.length a a hlen' hc
    have hcyc : hasCycleB tasks = true := by
      unfold hasCycleB
      rw [List.any_eq_true]
      refine ⟨ta, hta, ?_⟩
      rw [htaa]
      exact hreach
    have hfind :
        tasks.find? (fun t => (depsOf t.2).any (fun d => !((taskNames tasks).contains d))) = none := by
      rw [List.find?_eq_none]
      intro t ht hbad
      rw [List.any_eq_true] at hbad
      obtain ⟨d, hd, hdb⟩ := hbad
      rw [hres t ht d hd] at hdb
      simp at hdb
    unfold assemble
    rw [hfind, hcyc]
    rfl

/-- Witness for C5: tasks `a` and `b` depending on each other. -/
theorem c5_cycle_fails_witness :
    assemble tasksC5 = .error AssembleError.cyclicDependencyError :=
  c5_cycle_fails tasksC5 ["a", "b"] (by decide)
    ⟨by decide, (by decide : hasEdgeB tasksC5 "b" "a" = true)⟩ (by decide)
